import Mathlib

/-!
Verification of the core logic of `sql2excel` (src/main.go): partition
boundary generation (`CreatePartitions`), the placeholder-substitution
chains built from Go's `strings.ReplaceAll`, the Excel column table used
by `Process`, and the per-partition report-writing flow of `Process`.
The Go code is shallowly embedded: times become a civil date-time record
with Go's `AddDate` normalization, `strings.ReplaceAll` becomes a
leftmost, non-overlapping list-of-chars scanner, and the effectful calls
of `Process` (file clone, query, cell writes, save) become an explicit
event trace driven by an outcome oracle.
-/

namespace Sql2Excel

/-! ### Go `strings.ReplaceAll`

`strings.ReplaceAll(s, old, new)` replaces every non-overlapping
occurrence of `old` in `s`, scanning left to right.  `replAux` is the
same scan over `List Char`; the fuel argument only bounds the recursion
(each step consumes at least one character of `s`, so `s.length` fuel is
always enough) and `replaceAll` supplies it.  Go's special case for an
empty `old` (which splices `new` between every rune) is irrelevant here:
every pattern the program uses is a non-empty token literal, and for an
empty `old` we return `s` unchanged. -/
def replAux (fuel : Nat) (s old new : List Char) : List Char :=
  match fuel, s with
  | 0, s => s
  | _ + 1, [] => []
  | fuel + 1, c :: rest =>
    if old ≠ [] ∧ old.isPrefixOf (c :: rest) then
      new ++ replAux fuel ((c :: rest).drop old.length) old new
    else
      c :: replAux fuel rest old new

/-- Go `strings.ReplaceAll` on `String`s. -/
def replaceAll (s old new : String) : String :=
  ⟨replAux s.data.length s.data old.data new.data⟩

/-- Does `pat` occur as a contiguous substring of `s`?  (Scanning form of
Go `strings.Contains`, restricted to non-empty patterns.) -/
def hasSub (s pat : List Char) : Bool :=
  match s with
  | [] => false
  | _ :: rest => pat.isPrefixOf s || hasSub rest pat

/-- String form of `hasSub`. -/
def hasSubStr (s pat : String) : Bool :=
  hasSub s.data pat.data

theorem replAux_of_not_hasSub (old new : List Char) :
    ∀ (fuel : Nat) (s : List Char), hasSub s old = false → replAux fuel s old new = s := by
  intro fuel
  induction fuel with
  | zero => intro s _; rfl
  | succ fuel ih =>
    intro s h
    match s with
    | [] => rfl
    | c :: rest =>
      simp only [hasSub, Bool.or_eq_false_iff] at h
      simp only [replAux]
      rw [if_neg, ih rest h.2]
      intro hc
      rw [hc.2] at h
      exact absurd h.1 (by simp [List.isPrefixOf_iff_prefix] at *)

/-- If `old` does not occur in `s`, `ReplaceAll` leaves `s` unchanged. -/
theorem replaceAll_of_not_hasSub (s old new : String) (h : hasSubStr s old = false) :
    replaceAll s old new = s := by
  unfold replaceAll
  rw [replAux_of_not_hasSub old.data new.data s.data.length s.data h]

/-! ### The substitution chains of the program

Each chain is the literal sequence of `strings.ReplaceAll` calls the Go
code performs on that kind of template string. -/

/-- The substitution chain of `CloneTemplate` (src/main.go lines 151-162)
on the output name, without the `".xlsx"` suffix it then appends:
`{num}`, then `{part.beg}`, then `{part.end}`. -/
def resolveTokens (name num begin_ end_ : String) : String :=
  replaceAll (replaceAll (replaceAll name "{num}" num) "{part.beg}" begin_) "{part.end}" end_

/-- The destination file name computed by `CloneTemplate`: the resolved
output name plus `".xlsx"`. -/
def resolveName (name num begin_ end_ : String) : String :=
  resolveTokens name num begin_ end_ ++ ".xlsx"

/-- The query substitution of `Process` (src/main.go line 192):
`{part.beg}` then `{part.end}` only. -/
def resolveQuery (q begin_ end_ : String) : String :=
  replaceAll (replaceAll q "{part.beg}" begin_) "{part.end}" end_

/-- The variable-value substitution of `Process` (src/main.go lines
225-231): `{part.beg}` then `{part.end}` only. -/
def resolveVar (v begin_ end_ : String) : String :=
  replaceAll (replaceAll v "{part.beg}" begin_) "{part.end}" end_

/-- The totalization-formula substitution of `Process` (src/main.go lines
246-248): `{rows.last}` only. -/
def resolveFormula (f lastRow : String) : String :=
  replaceAll f "{rows.last}" lastRow

/-! ### Go `time.Time` for this program

The program only ever builds times from `time.Parse("2006-01-02T15:04:05", _)`
and advances them with `AddDate`, so a civil date plus the second of the
day captures every `time.Time` the program handles (all share the UTC
location; no sub-second precision ever arises). -/

/-- A `time.Time` as the program uses it: proleptic Gregorian civil date
plus the second within the day. -/
structure DT where
  year : Nat
  month : Nat
  day : Nat
  secs : Nat
  deriving DecidableEq, Repr

/-- Gregorian leap-year rule (Go `isLeap`). -/
def isLeap (y : Nat) : Bool :=
  y % 4 == 0 && (y % 100 != 0 || y % 400 == 0)

/-- Days in a month (Go `daysIn`); months outside 1..12 never reach it. -/
def daysInMonth (y m : Nat) : Nat :=
  match m with
  | 1 => 31
  | 2 => if isLeap y then 29 else 28
  | 3 => 31
  | 4 => 30
  | 5 => 31
  | 6 => 30
  | 7 => 31
  | 8 => 31
  | 9 => 30
  | 10 => 31
  | 11 => 30
  | 12 => 31
  | _ => 31

/-- Days from January 1 up to the first of month `m` in a non-leap year
(Go's `daysBefore` table). -/
def daysBeforeMonth (m : Nat) : Nat :=
  match m with
  | 1 => 0
  | 2 => 31
  | 3 => 59
  | 4 => 90
  | 5 => 120
  | 6 => 151
  | 7 => 181
  | 8 => 212
  | 9 => 243
  | 10 => 273
  | 11 => 304
  | 12 => 334
  | _ => 365

/-- Days from January 1 of year `y` up to the first of month `m`, with
the leap-day correction. -/
def monthOffset (y m : Nat) : Nat :=
  daysBeforeMonth m + (if 2 < m ∧ isLeap y then 1 else 0)

/-- Days from 0000-01-01 up to `y`-01-01: 365 per year plus one per leap
year among `0, ..., y-1` (counted without subtraction by rounding the
divisions up). -/
def daysBeforeYear (y : Nat) : Nat :=
  365 * y + (y + 3) / 4 - (y + 99) / 100 + (y + 399) / 400

/-- Absolute day number of a (possibly day-overflowed) civil date: the
formula stays correct when `d` exceeds the month length, which is exactly
how Go's `Date` absorbs day overflow. -/
def rawDays (y m d : Nat) : Nat :=
  daysBeforeYear y + monthOffset y m + (d - 1)

/-- Absolute day number of a `DT`. -/
def absDays (t : DT) : Nat :=
  rawDays t.year t.month t.day

/-- Absolute second count of a `DT`; Go's `Before` is `<` on this. -/
def absS (t : DT) : Nat :=
  absDays t * 86400 + t.secs

/-- Go `Before` (src uses `cur.Before(end)`). -/
def before (a b : DT) : Bool :=
  absS a < absS b

/-- Day-overflow normalization performed by Go's `Date` constructor
(which `AddDate` calls): while the day exceeds the month length, roll
into the following month.  The fuel only bounds the recursion; each step
removes at least 28 days, so `d` itself is always enough fuel. -/
def normD (fuel y m d : Nat) : Nat × Nat × Nat :=
  match fuel with
  | 0 => (y, m, d)
  | fuel + 1 =>
    if d ≤ daysInMonth y m then (y, m, d)
    else if m = 12 then normD fuel (y + 1) 1 (d - 31)
    else normD fuel y (m + 1) (d - daysInMonth y m)

/-- Go `Time.AddDate(years, months, days)` for the non-negative offsets
the partition loop uses: normalize the month count (Go `norm(year, m, 12)`
on the zero-based month), add the days, absorb day overflow, keep the
time of day. -/
def addDate (t : DT) (years months days : Nat) : DT :=
  let tm := t.month - 1 + months
  let y := t.year + years + tm / 12
  let m := tm % 12 + 1
  let d := t.day + days
  let n := normD d y m d
  ⟨n.1, n.2.1, n.2.2, t.secs⟩

/-- Go `Time.AddDate(0, 0, -1)` on the valid dates `Process` feeds it
(src/main.go line 185): step back one calendar day. -/
def subOneDay (t : DT) : DT :=
  if 2 ≤ t.day then ⟨t.year, t.month, t.day - 1, t.secs⟩
  else if 2 ≤ t.month then ⟨t.year, t.month - 1, daysInMonth t.year (t.month - 1), t.secs⟩
  else ⟨t.year - 1, 12, 31, t.secs⟩

/-- The invariant every parsed or `addDate`-produced time satisfies. -/
def Valid (t : DT) : Prop :=
  1 ≤ t.month ∧ t.month ≤ 12 ∧ 1 ≤ t.day ∧ t.day ≤ daysInMonth t.year t.month ∧
    t.secs < 86400

/-! ### `time.Parse("2006-01-02T15:04:05", s)`

All layout fields are fixed-width numerics, so Go accepts exactly
`YYYY-MM-DDThh:mm:ss` (19 characters, digits in the numeric positions)
and then rejects out-of-range months, days (against the month length),
hours, minutes, and seconds. -/

/-- Two-digit fixed-width numeric field. -/
def d2 (a b : Char) : Nat :=
  (a.toNat - 48) * 10 + (b.toNat - 48)

/-- Four-digit fixed-width numeric field. -/
def d4 (a b c d : Char) : Nat :=
  ((a.toNat - 48) * 10 + (b.toNat - 48)) * 100 + d2 c d

/-- Go `time.Parse` with layout `2006-01-02T15:04:05`. -/
def parseDateTime (s : String) : Option DT :=
  match s.data with
  | [y1, y2, y3, y4, s1, m1, m2, s2, dd1, dd2, tc, h1, h2, c1, n1, n2, c2, e1, e2] =>
    if [y1, y2, y3, y4, m1, m2, dd1, dd2, h1, h2, n1, n2, e1, e2].all Char.isDigit &&
        s1 == '-' && s2 == '-' && tc == 'T' && c1 == ':' && c2 == ':' then
      if 1 ≤ d2 m1 m2 ∧ d2 m1 m2 ≤ 12 ∧ 1 ≤ d2 dd1 dd2 ∧
          d2 dd1 dd2 ≤ daysInMonth (d4 y1 y2 y3 y4) (d2 m1 m2) ∧
          d2 h1 h2 < 24 ∧ d2 n1 n2 < 60 ∧ d2 e1 e2 < 60 then
        some ⟨d4 y1 y2 y3 y4, d2 m1 m2, d2 dd1 dd2,
          d2 h1 h2 * 3600 + d2 n1 n2 * 60 + d2 e1 e2⟩
      else none
    else none
  | _ => none

/-! ### `CreatePartitions` (src/main.go lines 105-138) -/

/-- The YAML `partition` block; the Go struct fields `Type`, `Begin`,
`End` collide with Lean keywords, hence the `p` prefix. -/
structure Partition where
  ptype : String
  pbegin : String
  pend : String

/-- The failure cases of the embedded program. -/
inductive GoErr where
  | parseError
  | unsupportedPartitionType
  | readError
  | writeError
  | openError
  | queryError
  | scanError
  | cellError
  | insertError
  | saveError
  deriving DecidableEq, Repr

deriving instance DecidableEq for Except

/-- The three adders of the `switch` in `CreatePartitions`. -/
inductive Gran where
  | day
  | month
  | year
  deriving DecidableEq, Repr

/-- The `switch part.Type` of `CreatePartitions`: which adder a type
string selects, `none` for the `default` branch. -/
def granOf (t : String) : Option Gran :=
  match t with
  | "day" | "daily" => some .day
  | "month" | "monthly" => some .month
  | "year" | "yearly" => some .year
  | _ => none

/-- `adder` as assigned by the `switch`. -/
def adder (g : Gran) (cur : DT) : DT :=
  match g with
  | .day => addDate cur 0 0 1
  | .month => addDate cur 0 1 0
  | .year => addDate cur 1 0 0

/-- The boundary loop of `CreatePartitions`: append `cur` while
`cur.Before(end)`, stepping with the adder, then append the final `cur`.
The fuel only bounds the iteration count; `partLoop_spec` below shows the
fuel `CreatePartitions` supplies is never exhausted. -/
def partLoop (g : Gran) (fuel : Nat) (end_ cur : DT) : List DT :=
  match fuel with
  | 0 => [cur]
  | fuel + 1 =>
    if before cur end_ then cur :: partLoop g fuel end_ (adder g cur)
    else [cur]

/-- `CreatePartitions`: parse `Begin+"T00:00:00"` and `End+"T23:59:59"`,
select the adder, and run the boundary loop. -/
def createPartitions (part : Partition) : Except GoErr (List DT) :=
  match parseDateTime (part.pbegin ++ "T00:00:00") with
  | none => .error .parseError
  | some b =>
    match parseDateTime (part.pend ++ "T23:59:59") with
    | none => .error .parseError
    | some e =>
      match granOf part.ptype with
      | none => .error .unsupportedPartitionType
      | some g => .ok (partLoop g (absDays e - absDays b + 1) e b)

/-! ### The configuration structs (src/main.go lines 27-59) -/

/-- `Variable` of the YAML config. -/
structure Variable where
  Row : Int
  Col : Int
  Value : String

/-- `Totalization` of the YAML config. -/
structure Totalization where
  Col : Int
  Formula : String

/-- The `Template` section. -/
structure TemplateCfg where
  Path : String
  Sheet : String
  Row : Int
  Col : Int

/-- The `Output` section. -/
structure OutputCfg where
  Name : String
  Variables : List Variable
  Totalizations : List Totalization

/-- The `Input` section as `Process` reads it (its `Sources` list is
consumed by `main`, which hands one source at a time to `runSource`). -/
structure InputCfg where
  Query : String
  TimeFormat : String

/-- The `Config` root. -/
structure Config where
  Input : InputCfg
  Output : OutputCfg
  Template : TemplateCfg

/-! ### The `ExcelCols` table and Go slice indexing (src/main.go 178-181) -/

/-- The literal 52-entry column-name table declared at the top of
`Process`. -/
def ExcelCols : List String :=
  ["A", "B", "C", "D", "E", "F", "G", "H", "I", "J", "K", "L", "M",
   "N", "O", "P", "Q", "R", "S", "T", "U", "V", "W", "X", "Y", "Z",
   "AA", "AB", "AC", "AD", "AE", "AF", "AG", "AH", "AI", "AJ", "AK", "AL", "AM",
   "AN", "AO", "AP", "AQ", "AR", "AS", "AT", "AU", "AV", "AW", "AX", "AY", "AZ"]

/-- Go slice indexing `l[i]`: in-range yields the element, any other
index (negative included) panics, modelled as `none`. -/
def goIndex {α : Type} (l : List α) (i : Int) : Option α :=
  if 0 ≤ i ∧ i < l.length then l.get? i.toNat else none

/-- Standard spreadsheet column naming for column numbers 1..702
(`A`..`Z`, then `AA`..), used as the independent reference that the
`ExcelCols` table is measured against. -/
def excelLetter (k : Nat) : String :=
  String.mk [Char.ofNat (64 + k)]

/-- Reference column name for 1-indexed column `n`. -/
def excelName (n : Nat) : String :=
  if n ≤ 26 then excelLetter n
  else excelLetter ((n - 1) / 26) ++ excelLetter ((n - 1) % 26 + 1)

/-- The cell address `ExcelCols[col-1] + fmt.Sprint(r)` computed all over
`Process`; `none` is the out-of-range panic. -/
def axisOf (col r : Int) : Option String :=
  (goIndex ExcelCols (col - 1)).map (fun c => c ++ toString r)

/-! ### Event-trace embedding of `Process` (src/main.go lines 172-261)

`Process` drives the database and the spreadsheet library; those
collaborators' outcomes are an oracle (`PartEff`), and the calls
`Process` makes are recorded as an event trace so that ordering claims
can be read off the trace. -/

/-- A scalar cell value from `SliceScan` (floats carry no logic here and
are not representable; no claim inspects values). -/
inductive Val where
  | vstr (s : String)
  | vint (n : Int)
  | vnull
  deriving DecidableEq, Repr

/-- One effectful call made by `Process`, in program order. -/
inductive Event where
  | readFile (path : String)
  | wroteFile (path : String)
  | openFile
  | closeFile
  | setRow (sheet axis : String) (vals : List Val)
  | setVar (sheet axis value : String)
  | insertRow (sheet : String) (r : Int)
  | getStyle (sheet axis : String)
  | setFormula (sheet axis formula : String)
  | setStyle (sheet axis : String)
  | save (res : Option GoErr)
  | close
  | rowsClose
  deriving DecidableEq, Repr

/-- Collaborator outcomes for one partition: the template read and copy
(`ioutil.ReadFile`/`WriteFile` in `CloneTemplate`), the
`excelize.OpenFile` in `LoadTemplate`, the query, the scanned rows, the
per-data-row `SetSheetRow` outcome, the `InsertRow` outcome, and the
`Save` outcome (whose value line 254 discards). -/
structure PartEff where
  readErr : Option GoErr
  writeErr : Option GoErr
  openErr : Option GoErr
  queryErr : Option GoErr
  rows : List (Except GoErr (List Val))
  setRowErr : Nat → Option GoErr
  insertErr : Option GoErr
  saveErr : Option GoErr

/-- How one partition of `Process` ends. -/
inductive PartRes where
  | ok
  | fail (e : GoErr)
  | panicked
  deriving DecidableEq, Repr

/-- Outcome of the data-row loop: the final write row, an error, or an
index panic. -/
inductive RowsRes where
  | ok (r : Int)
  | fail (e : GoErr)
  | panicked
  deriving DecidableEq, Repr

/-- The `rows.Next()` loop (src/main.go lines 201-220): scan, compute the
axis (panicking when the column is out of the table), `SetSheetRow`,
advance `r`. -/
def dataLoop (sheet : String) (col : Int) (setRowErr : Nat → Option GoErr) :
    List (Except GoErr (List Val)) → Nat → Int → List Event × RowsRes
  | [], _, r => ([], .ok r)
  | row :: rest, i, r =>
    match row with
    | .error e => ([], .fail e)
    | .ok vals =>
      match axisOf col r with
      | none => ([], .panicked)
      | some axis =>
        match setRowErr i with
        | some e => ([.setRow sheet axis vals], .fail e)
        | none =>
          let (evs, res) := dataLoop sheet col setRowErr rest (i + 1) (r + 1)
          (.setRow sheet axis vals :: evs, res)

/-- The variables loop (src/main.go lines 222-233); `SetCellStr`'s error
is discarded (`_ =`), so only the index panic can interrupt it. -/
def varsLoop (sheet begin_ end_ : String) : List Variable → List Event × Bool
  | [] => ([], false)
  | v :: rest =>
    match axisOf v.Col v.Row with
    | none => ([], true)
    | some axis =>
      let (evs, p) := varsLoop sheet begin_ end_ rest
      (.setVar sheet axis (resolveVar v.Value begin_ end_) :: evs, p)

/-- The totalizations loop (src/main.go lines 242-252): per entry, the
axis (panic point), `GetCellStyle` of the cell one row up,
`SetCellFormula` with `{rows.last}` resolved to `r-1`, `SetCellStyle`;
all three call results are discarded. -/
def totsLoop (sheet : String) (r : Int) : List Totalization → List Event × Bool
  | [] => ([], false)
  | tot :: rest =>
    match goIndex ExcelCols (tot.Col - 1) with
    | none => ([], true)
    | some colName =>
      let (evs, p) := totsLoop sheet r rest
      (.getStyle sheet (colName ++ toString (r - 1)) ::
        .setFormula sheet (colName ++ toString r)
          (resolveFormula tot.Formula (toString (r - 1))) ::
        .setStyle sheet (colName ++ toString r) :: evs, p)

/-- One iteration of the partition loop of `Process` (src/main.go lines
183-257): clone the template (read, write, then `LoadTemplate`, whose
`defer tpl.Close()` runs when `LoadTemplate` returns — hence the
`closeFile` event immediately after `openFile`, before any use of the
handle), run the query, write the data rows, write the variables, insert
the total row when totalizations exist, write the totals, then call
`Save` (result discarded), `Close`, and `rows.Close`. -/
def processPartition (cfg : Config) (num : Int) (begin_ end_ : String) (eff : PartEff) :
    List Event × PartRes :=
  match eff.readErr with
  | some e => ([], .fail e)
  | none =>
    let dst := resolveName cfg.Output.Name (toString num) begin_ end_
    match eff.writeErr with
    | some e => ([.readFile cfg.Template.Path], .fail e)
    | none =>
      match eff.openErr with
      | some e => ([.readFile cfg.Template.Path, .wroteFile dst, .openFile], .fail e)
      | none =>
        let pre := [Event.readFile cfg.Template.Path, .wroteFile dst, .openFile, .closeFile]
        match eff.queryErr with
        | some e => (pre, .fail e)
        | none =>
          match dataLoop cfg.Template.Sheet cfg.Template.Col eff.setRowErr eff.rows 0
            cfg.Template.Row with
          | (dataEvs, .fail e) => (pre ++ dataEvs, .fail e)
          | (dataEvs, .panicked) => (pre ++ dataEvs, .panicked)
          | (dataEvs, .ok r) =>
            match varsLoop cfg.Template.Sheet begin_ end_ cfg.Output.Variables with
            | (varEvs, true) => (pre ++ dataEvs ++ varEvs, .panicked)
            | (varEvs, false) =>
              match cfg.Output.Totalizations with
              | [] =>
                (pre ++ dataEvs ++ varEvs ++ [.save eff.saveErr, .close, .rowsClose], .ok)
              | _ =>
                match eff.insertErr with
                | some e =>
                  (pre ++ dataEvs ++ varEvs ++ [.insertRow cfg.Template.Sheet r], .fail e)
                | none =>
                  match totsLoop cfg.Template.Sheet r cfg.Output.Totalizations with
                  | (totEvs, true) =>
                    (pre ++ dataEvs ++ varEvs ++ [.insertRow cfg.Template.Sheet r] ++ totEvs,
                      .panicked)
                  | (totEvs, false) =>
                    (pre ++ dataEvs ++ varEvs ++ [.insertRow cfg.Template.Sheet r] ++ totEvs ++
                      [.save eff.saveErr, .close, .rowsClose], .ok)

/-- The `for p` loop of `Process`: one `processPartition` per adjacent
boundary pair, with `begin`/`end` the formatted bounds (`fmtF` stands for
`Format(cfg.Input.TimeFormat)`, a collaborator) and `num = total + p`;
any error or panic stops the loop at once. -/
def processLoop (cfg : Config) (fmtF : DT → String) (effs : Nat → PartEff) (total : Int) :
    Nat → List DT → List Event × PartRes
  | _, [] => ([], .ok)
  | _, [_] => ([], .ok)
  | p, a :: b :: rest =>
    let (evs, res) := processPartition cfg (total + (p : Int)) (fmtF a)
      (fmtF (subOneDay b)) (effs p)
    match res with
    | .ok =>
      let (evs2, res2) := processLoop cfg fmtF effs total (p + 1) (b :: rest)
      (evs ++ evs2, res2)
    | r => (evs, r)

/-- How one data source ends in `main`: `log.Fatalf` (process exit,
before `Process` is ever entered) when `CreatePartitions` fails, else the
result of `Process`. -/
inductive SourceRes where
  | fatal (e : GoErr)
  | done (r : PartRes)
  deriving DecidableEq, Repr

/-- One iteration of `main`'s source loop (src/main.go lines 277-296):
`CreatePartitions`, then `Process`; a `CreatePartitions` error is fatal
and `Process` (hence any output-file write) never runs. -/
def runSource (cfg : Config) (fmtF : DT → String) (effs : Nat → PartEff) (total : Int)
    (part : Partition) : List Event × SourceRes :=
  match createPartitions part with
  | .error e => ([], .fatal e)
  | .ok parts =>
    match processLoop cfg fmtF effs total 0 parts with
    | (evs, r) => (evs, .done r)

/-! ### Event discriminators and concrete fixtures -/

/-- Is this a data-grid `SetSheetRow` call? -/
def isSetRow : Event → Bool
  | .setRow _ _ _ => true
  | _ => false

/-- Is this an `InsertRow` call? -/
def isInsert : Event → Bool
  | .insertRow _ _ => true
  | _ => false

/-- Is this a `SetCellFormula` call? -/
def isSetFormula : Event → Bool
  | .setFormula _ _ _ => true
  | _ => false

/-- Is this an output-file write (`ioutil.WriteFile` in `CloneTemplate`)? -/
def isWroteFile : Event → Bool
  | .wroteFile _ => true
  | _ => false

/-- A minimal concrete configuration, shaped like the sample YAML. -/
def cfg0 : Config :=
  { Input := { Query := "select * from t where d between '{part.beg}' and '{part.end}'",
               TimeFormat := "2006-01-02" },
    Output := { Name := "out-{num}", Variables := [], Totalizations := [] },
    Template := { Path := "template.xlsx", Sheet := "example", Row := 10, Col := 2 } }

/-- Output section with one variable and one totalization. -/
def out1 : OutputCfg :=
  { Name := "out-{num}",
    Variables := [{ Row := 6, Col := 2, Value := "partition {part.beg} to {part.end}" }],
    Totalizations := [{ Col := 4, Formula := "=SUM(D10:D{rows.last})" }] }

/-- `cfg0` with start row 10, one variable, and one totalization. -/
def cfg1 : Config :=
  { cfg0 with Output := out1 }

/-- All-success collaborator outcomes with no result rows. -/
def effOk : PartEff :=
  { readErr := none, writeErr := none, openErr := none, queryErr := none,
    rows := [], setRowErr := fun _ => none, insertErr := none, saveErr := none }

/-- All-success outcomes except that `Save` fails. -/
def effSaveFail : PartEff :=
  { effOk with saveErr := some .saveError }

/-- All-success outcomes with three scanned result rows. -/
def eff3 : PartEff :=
  { effOk with rows := [.ok [.vint 1, .vstr "a"], .ok [.vint 2, .vstr "b"],
      .ok [.vint 3, .vstr "c"]] }

/-! ### Calendar arithmetic lemmas -/

theorem isLeap_iff (y : Nat) :
    isLeap y = true ↔ (y % 4 = 0 ∧ (y % 100 ≠ 0 ∨ y % 400 = 0)) := by
  unfold isLeap
  simp [Bool.and_eq_true, Bool.or_eq_true]

theorem daysBeforeYear_succ (y : Nat) :
    daysBeforeYear (y + 1) = daysBeforeYear y + (if isLeap y then 366 else 365) := by
  have e4 : (y + 1 + 3) / 4 = (y + 3) / 4 + (if y % 4 = 0 then 1 else 0) := by
    by_cases h : y % 4 = 0
    · rw [if_pos h]; omega
    · rw [if_neg h]; omega
  have e100 : (y + 1 + 99) / 100 = (y + 99) / 100 + (if y % 100 = 0 then 1 else 0) := by
    by_cases h : y % 100 = 0
    · rw [if_pos h]; omega
    · rw [if_neg h]; omega
  have e400 : (y + 1 + 399) / 400 = (y + 399) / 400 + (if y % 400 = 0 then 1 else 0) := by
    by_cases h : y % 400 = 0
    · rw [if_pos h]; omega
    · rw [if_neg h]; omega
  unfold daysBeforeYear
  rw [e4, e100, e400]
  by_cases hL : isLeap y = true
  · rw [if_pos hL]
    have hL' := (isLeap_iff y).mp hL
    by_cases h4 : y % 4 = 0 <;> by_cases h100 : y % 100 = 0 <;> by_cases h400 : y % 400 = 0
    · rw [if_pos h4, if_pos h100, if_pos h400]; omega
    · rw [if_pos h4, if_pos h100, if_neg h400]; omega
    · rw [if_pos h4, if_neg h100, if_pos h400]; omega
    · rw [if_pos h4, if_neg h100, if_neg h400]; omega
    · rw [if_neg h4, if_pos h100, if_pos h400]; omega
    · rw [if_neg h4, if_pos h100, if_neg h400]; omega
    · rw [if_neg h4, if_neg h100, if_pos h400]; omega
    · rw [if_neg h4, if_neg h100, if_neg h400]; omega
  · rw [if_neg hL]
    have hL' : ¬(y % 4 = 0 ∧ (y % 100 ≠ 0 ∨ y % 400 = 0)) :=
      fun hc => hL ((isLeap_iff y).mpr hc)
    by_cases h4 : y % 4 = 0 <;> by_cases h100 : y % 100 = 0 <;> by_cases h400 : y % 400 = 0
    · rw [if_pos h4, if_pos h100, if_pos h400]; omega
    · rw [if_pos h4, if_pos h100, if_neg h400]; omega
    · rw [if_pos h4, if_neg h100, if_pos h400]; omega
    · rw [if_pos h4, if_neg h100, if_neg h400]; omega
    · rw [if_neg h4, if_pos h100, if_pos h400]; omega
    · rw [if_neg h4, if_pos h100, if_neg h400]; omega
    · rw [if_neg h4, if_neg h100, if_pos h400]; omega
    · rw [if_neg h4, if_neg h100, if_neg h400]; omega

theorem daysInMonth_pos (y m : Nat) : 1 ≤ daysInMonth y m := by
  unfold daysInMonth
  split <;> first | omega | (split <;> omega)

theorem daysInMonth_le (y m : Nat) : daysInMonth y m ≤ 31 := by
  unfold daysInMonth
  split <;> first | omega | (split <;> omega)

theorem monthOffset_succ (y m : Nat) (h1 : 1 ≤ m) (h2 : m ≤ 11) :
    monthOffset y (m + 1) = monthOffset y m + daysInMonth y m := by
  interval_cases m <;>
    · unfold monthOffset daysInMonth daysBeforeMonth
      rcases Bool.eq_false_or_eq_true (isLeap y) with h | h <;> simp [h]

theorem monthOffset_one (y : Nat) : monthOffset y 1 = 0 := by
  simp [monthOffset, daysBeforeMonth]

theorem monthOffset_twelve (y : Nat) :
    monthOffset y 12 = 334 + (if isLeap y then 1 else 0) := by
  unfold monthOffset daysBeforeMonth
  rcases Bool.eq_false_or_eq_true (isLeap y) with h | h <;> simp [h]

theorem monthOffset_le (y m : Nat) : monthOffset y m ≤ 366 := by
  unfold monthOffset daysBeforeMonth
  split <;> split <;> omega

theorem normD_succ (fuel y m d : Nat) :
    normD (fuel + 1) y m d =
      if d ≤ daysInMonth y m then (y, m, d)
      else if m = 12 then normD fuel (y + 1) 1 (d - 31)
      else normD fuel y (m + 1) (d - daysInMonth y m) := rfl

/-- `normD` preserves the raw day count and lands on a calendar-valid
(year, month, day) triple. -/
theorem normD_spec :
    ∀ (fuel y m d : Nat), 1 ≤ m → m ≤ 12 → 1 ≤ d → d ≤ fuel →
      rawDays (normD fuel y m d).1 (normD fuel y m d).2.1 (normD fuel y m d).2.2 =
          rawDays y m d ∧
        1 ≤ (normD fuel y m d).2.1 ∧ (normD fuel y m d).2.1 ≤ 12 ∧
        1 ≤ (normD fuel y m d).2.2 ∧
        (normD fuel y m d).2.2 ≤ daysInMonth (normD fuel y m d).1 (normD fuel y m d).2.1 := by
  intro fuel
  induction fuel with
  | zero => intro y m d _ _ h3 h4; omega
  | succ fuel ih =>
    intro y m d h1 h2 h3 h4
    by_cases hd : d ≤ daysInMonth y m
    · have hnd : normD (fuel + 1) y m d = (y, m, d) := by
        rw [normD_succ, if_pos hd]
      rw [hnd]
      exact ⟨rfl, h1, h2, h3, hd⟩
    · by_cases hm : m = 12
      · subst hm
        have hd31 : daysInMonth y 12 = 31 := rfl
        rw [hd31] at hd
        have h5 : 1 ≤ d - 31 := by omega
        have h6 : d - 31 ≤ fuel := by omega
        have hrec := ih (y + 1) 1 (d - 31) (by omega) (by omega) h5 h6
        have hnd : normD (fuel + 1) y 12 d = normD fuel (y + 1) 1 (d - 31) := by
          rw [normD_succ, if_neg (by rw [hd31]; exact hd), if_pos rfl]
        rw [hnd]
        refine ⟨?_, hrec.2⟩
        rw [hrec.1]
        unfold rawDays
        rw [daysBeforeYear_succ, monthOffset_one, monthOffset_twelve]
        by_cases hL : isLeap y = true
        · rw [if_pos hL, if_pos hL]
          omega
        · rw [if_neg hL, if_neg hL]
          omega
      · have hdim1 : 1 ≤ daysInMonth y m := daysInMonth_pos y m
        have h5 : 1 ≤ d - daysInMonth y m := by omega
        have h6 : d - daysInMonth y m ≤ fuel := by omega
        have hrec := ih y (m + 1) (d - daysInMonth y m) (by omega) (by omega) h5 h6
        have hnd : normD (fuel + 1) y m d = normD fuel y (m + 1) (d - daysInMonth y m) := by
          rw [normD_succ, if_neg hd, if_neg hm]
        rw [hnd]
        refine ⟨?_, hrec.2⟩
        rw [hrec.1]
        unfold rawDays
        rw [monthOffset_succ y m h1 (by omega)]
        omega

theorem adder_day_eq (t : DT) (h1 : 1 ≤ t.month) (h2 : t.month ≤ 12) :
    adder .day t = ⟨(normD (t.day + 1) t.year t.month (t.day + 1)).1,
      (normD (t.day + 1) t.year t.month (t.day + 1)).2.1,
      (normD (t.day + 1) t.year t.month (t.day + 1)).2.2, t.secs⟩ := by
  simp only [adder, addDate]
  rw [show t.year + 0 + (t.month - 1 + 0) / 12 = t.year from by omega,
    show (t.month - 1 + 0) % 12 + 1 = t.month from by omega]

theorem adder_month_eq (t : DT) (h1 : 1 ≤ t.month) :
    adder .month t = ⟨(normD t.day (t.year + t.month / 12) (t.month % 12 + 1) t.day).1,
      (normD t.day (t.year + t.month / 12) (t.month % 12 + 1) t.day).2.1,
      (normD t.day (t.year + t.month / 12) (t.month % 12 + 1) t.day).2.2, t.secs⟩ := by
  simp only [adder, addDate]
  rw [show t.month - 1 + 1 = t.month from by omega,
    show t.year + 0 + t.month / 12 = t.year + t.month / 12 from by omega,
    show t.day + 0 = t.day from by omega]

theorem adder_year_eq (t : DT) (h1 : 1 ≤ t.month) (h2 : t.month ≤ 12) :
    adder .year t = ⟨(normD t.day (t.year + 1) t.month t.day).1,
      (normD t.day (t.year + 1) t.month t.day).2.1,
      (normD t.day (t.year + 1) t.month t.day).2.2, t.secs⟩ := by
  simp only [adder, addDate]
  rw [show t.year + 1 + (t.month - 1 + 0) / 12 = t.year + 1 from by omega,
    show (t.month - 1 + 0) % 12 + 1 = t.month from by omega,
    show t.day + 0 = t.day from by omega]

/-- Each adder of `CreatePartitions` strictly advances the absolute day
count, keeps the time of day, and preserves calendar validity. -/
theorem adder_spec (g : Gran) (t : DT) (h : Valid t) :
    absDays t < absDays (adder g t) ∧ Valid (adder g t) ∧ (adder g t).secs = t.secs := by
  obtain ⟨hm1, hm2, hd1, hd2, hs⟩ := h
  cases g
  case day =>
    rw [adder_day_eq t hm1 hm2]
    have hnp := normD_spec (t.day + 1) t.year t.month (t.day + 1) hm1 hm2 (by omega)
      (by omega)
    refine ⟨?_, ⟨hnp.2.1, hnp.2.2.1, hnp.2.2.2.1, hnp.2.2.2.2, hs⟩, rfl⟩
    show absDays t < rawDays _ _ _
    rw [hnp.1]
    unfold absDays rawDays
    omega
  case month =>
    rw [adder_month_eq t hm1]
    have hmn1 : 1 ≤ t.month % 12 + 1 := by omega
    have hmn2 : t.month % 12 + 1 ≤ 12 := by omega
    have hnp := normD_spec t.day (t.year + t.month / 12) (t.month % 12 + 1) t.day
      hmn1 hmn2 hd1 (le_refl _)
    refine ⟨?_, ⟨hnp.2.1, hnp.2.2.1, hnp.2.2.2.1, hnp.2.2.2.2, hs⟩, rfl⟩
    show absDays t < rawDays _ _ _
    rw [hnp.1]
    unfold absDays rawDays
    by_cases h12 : t.month = 12
    · rw [h12, show (12 : Nat) / 12 = 1 from by omega,
        show (12 : Nat) % 12 + 1 = 1 from by omega,
        monthOffset_one, monthOffset_twelve, daysBeforeYear_succ]
      by_cases hL : isLeap t.year = true
      · rw [if_pos hL, if_pos hL]; omega
      · rw [if_neg hL, if_neg hL]; omega
    · rw [show t.year + t.month / 12 = t.year from by omega,
        show t.month % 12 + 1 = t.month + 1 from by omega,
        monthOffset_succ t.year t.month hm1 (by omega)]
      have := daysInMonth_pos t.year t.month
      omega
  case year =>
    rw [adder_year_eq t hm1 hm2]
    have hnp := normD_spec t.day (t.year + 1) t.month t.day hm1 hm2 hd1 (le_refl _)
    refine ⟨?_, ⟨hnp.2.1, hnp.2.2.1, hnp.2.2.2.1, hnp.2.2.2.2, hs⟩, rfl⟩
    show absDays t < rawDays _ _ _
    rw [hnp.1]
    unfold absDays rawDays monthOffset
    rw [daysBeforeYear_succ]
    have h366 : daysBeforeMonth t.month ≤ 365 := by
      unfold daysBeforeMonth
      split <;> omega
    by_cases hL1 : isLeap t.year = true <;> by_cases hL2 : isLeap (t.year + 1) = true <;>
      by_cases hM : 2 < t.month <;>
        simp only [hL1, hL2, hM, if_pos, if_neg, if_true, if_false, and_true, and_false,
          Bool.false_eq_true] <;> omega

/-- `absS` comparison reduces to day comparison when the later day is
reached (time of day is below a full day on both sides). -/
theorem absS_lt_of_absDays_lt {a b : DT} (h : absDays a < absDays b) (ha : a.secs < 86400) :
    absS a < absS b := by
  unfold absS
  have : absDays a * 86400 + a.secs < (absDays a + 1) * 86400 := by omega
  calc absDays a * 86400 + a.secs < (absDays a + 1) * 86400 := this
    _ ≤ absDays b * 86400 := Nat.mul_le_mul_right _ h
    _ ≤ absDays b * 86400 + b.secs := Nat.le_add_right _ _

theorem absDays_le_of_absS_lt {a b : DT} (h : absS a < absS b) (hb : b.secs < 86400) :
    absDays a ≤ absDays b := by
  unfold absS at h
  by_contra hc
  have : absDays b + 1 ≤ absDays a := by omega
  have : (absDays b + 1) * 86400 ≤ absDays a * 86400 := Nat.mul_le_mul_right _ this
  omega

/-! ### Loop lemmas for `CreatePartitions` -/

theorem partLoop_succ (g : Gran) (fuel : Nat) (end_ cur : DT) :
    partLoop g (fuel + 1) end_ cur =
      if before cur end_ then cur :: partLoop g fuel end_ (adder g cur) else [cur] := rfl

theorem partLoop_head (g : Gran) (fuel : Nat) (end_ cur : DT) :
    (partLoop g fuel end_ cur).head? = some cur := by
  cases fuel with
  | zero => rfl
  | succ fuel =>
    unfold partLoop
    split <;> rfl

/-- The generated boundaries are strictly increasing in absolute time. -/
theorem partLoop_chain (g : Gran) :
    ∀ (fuel : Nat) (end_ cur : DT), Valid cur →
      List.Chain' (fun a b => absS a < absS b) (partLoop g fuel end_ cur) := by
  intro fuel
  induction fuel with
  | zero => intro _ _ _; simp [partLoop]
  | succ fuel ih =>
    intro end_ cur hv
    unfold partLoop
    split
    · obtain ⟨hlt, hvn, hsecs⟩ := adder_spec g cur hv
      rw [List.chain'_cons']
      refine ⟨?_, ih end_ (adder g cur) hvn⟩
      intro y hy
      rw [partLoop_head] at hy
      cases hy
      exact absS_lt_of_absDays_lt hlt (hv.2.2.2.2)
    · simp

/-- Decomposition of the loop output: every boundary but the last is
strictly before `end`, and the final appended boundary is the first one
not before `end` (it is past `end`, never clamped to it). -/
theorem partLoop_last (g : Gran) :
    ∀ (fuel : Nat) (end_ cur : DT), Valid cur → end_.secs < 86400 →
      absDays end_ < absDays cur + fuel →
      ∃ l z, partLoop g fuel end_ cur = l ++ [z] ∧
        (∀ x ∈ l, absS x < absS end_) ∧ absS end_ ≤ absS z ∧ z.secs = cur.secs := by
  intro fuel
  induction fuel with
  | zero =>
    intro end_ cur hv hse hf
    refine ⟨[], cur, rfl, by simp, ?_, rfl⟩
    have : absS end_ < absS cur :=
      absS_lt_of_absDays_lt (by omega) hse
    omega
  | succ fuel ih =>
    intro end_ cur hv hse hf
    unfold partLoop
    by_cases hb : before cur end_
    · rw [if_pos hb]
      obtain ⟨hlt, hvn, hsecs⟩ := adder_spec g cur hv
      obtain ⟨l, z, heq, hl, hz, hzsecs⟩ := ih end_ (adder g cur) hvn hse (by omega)
      refine ⟨cur :: l, z, by rw [heq]; rfl, ?_, hz, by rw [hzsecs, hsecs]⟩
      intro x hx
      rcases List.mem_cons.mp hx with rfl | hx'
      · unfold before at hb
        simpa using hb
      · exact hl x hx'
    · rw [if_neg hb]
      refine ⟨[], cur, rfl, by simp, ?_, rfl⟩
      unfold before at hb
      simp only [decide_eq_true_eq] at hb
      omega

/-- Success of `parseDateTime` yields a calendar-valid time. -/
theorem parseDateTime_valid (s : String) (t : DT) (h : parseDateTime s = some t) :
    Valid t := by
  unfold parseDateTime at h
  split at h
  · split at h
    · split at h
      · injection h with h
        subst h
        rename_i hcond
        obtain ⟨h1, h2, h3, h4, h5, h6, h7⟩ := hcond
        exact ⟨h1, h2, h3, h4, by simp only; omega⟩
      · exact absurd h (by simp)
    · exact absurd h (by simp)
  · exact absurd h (by simp)

/-! ### The column table -/

theorem excelCols_length : ExcelCols.length = 52 := by decide

theorem excelCols_get_all :
    ((List.range 52).all fun n => ExcelCols.get? n == some (excelName (n + 1))) = true := by
  decide

/-- In-range lookup of the column table hits the standard column name. -/
theorem excelCols_in_range (col : Int) (h1 : 1 ≤ col) (h2 : col ≤ 52) :
    goIndex ExcelCols (col - 1) = some (excelName col.toNat) := by
  have hall := excelCols_get_all
  rw [List.all_eq_true] at hall
  have hn : (col - 1).toNat ∈ List.range 52 := by
    rw [List.mem_range]
    omega
  have hget := hall _ hn
  rw [beq_iff_eq] at hget
  unfold goIndex
  rw [if_pos ⟨by omega, by rw [excelCols_length]; omega⟩]
  rw [hget, show (col - 1).toNat + 1 = col.toNat from by omega]

/-! ### Claims about the column table and `main`'s control flow (C9, C6) -/

/-- C9: every cell address of `Process` is built by indexing the fixed
52-entry `ExcelCols` table at `col - 1` with Go's unchecked slice
indexing: any configured column outside 1..52 makes the lookup panic
(`none`), so `1 <= col <= 52` is a precondition of every cell write, and
inside that range column `n` maps gaplessly to the names `A`..`AZ`. -/
theorem C9_column_table (col : Int) :
    ExcelCols.length = 52 ∧
    ((col < 1 ∨ 52 < col) → goIndex ExcelCols (col - 1) = none) ∧
    (1 ≤ col → col ≤ 52 → goIndex ExcelCols (col - 1) = some (excelName col.toNat)) := by
  refine ⟨excelCols_length, ?_, fun h1 h2 => excelCols_in_range col h1 h2⟩
  intro h
  unfold goIndex
  rw [if_neg]
  rw [excelCols_length]
  omega

/-- C9, witness: both out-of-range panics and two in-range lookups. -/
theorem C9_column_table_witness :
    goIndex ExcelCols ((53 : Int) - 1) = none ∧
    goIndex ExcelCols ((0 : Int) - 1) = none ∧
    goIndex ExcelCols ((2 : Int) - 1) = some (excelName (2 : Int).toNat) ∧
    goIndex ExcelCols ((52 : Int) - 1) = some (excelName (52 : Int).toNat) :=
  ⟨(C9_column_table 53).2.1 (by decide), (C9_column_table 0).2.1 (by decide),
    (C9_column_table 2).2.2 (by decide) (by decide),
    (C9_column_table 52).2.2 (by decide) (by decide)⟩

/-- C6: a `PartitionSpec` whose dates parse but whose granularity string
is unrecognized makes `CreatePartitions` fail with the unsupported-type
error; `main` then exits fatally for that source before `Process` runs,
so its event trace is empty — in particular no output file is written. -/
theorem C6_unsupported_granularity (cfg : Config) (fmtF : DT → String) (effs : Nat → PartEff)
    (total : Int) (part : Partition) (b e : DT)
    (hb : parseDateTime (part.pbegin ++ "T00:00:00") = some b)
    (he : parseDateTime (part.pend ++ "T23:59:59") = some e)
    (hg : granOf part.ptype = none) :
    createPartitions part = .error .unsupportedPartitionType ∧
    runSource cfg fmtF effs total part = ([], .fatal .unsupportedPartitionType) ∧
    ((runSource cfg fmtF effs total part).1.filter isWroteFile) = [] := by
  have hcp : createPartitions part = .error .unsupportedPartitionType := by
    simp only [createPartitions, hb, he, hg]
  have hrs : runSource cfg fmtF effs total part = ([], .fatal .unsupportedPartitionType) := by
    simp only [runSource, hcp]
  exact ⟨hcp, hrs, by rw [hrs]; rfl⟩

/-- C6, witness at granularity string "weekly". -/
theorem C6_unsupported_granularity_witness :
    parseDateTime ("2022-01-01" ++ "T00:00:00") = some ⟨2022, 1, 1, 0⟩ ∧
    parseDateTime ("2022-12-31" ++ "T23:59:59") = some ⟨2022, 12, 31, 86399⟩ ∧
    granOf "weekly" = none ∧
    (createPartitions ⟨"weekly", "2022-01-01", "2022-12-31"⟩ =
        .error .unsupportedPartitionType ∧
      runSource cfg0 (fun _ => "") (fun _ => effOk) 1 ⟨"weekly", "2022-01-01", "2022-12-31"⟩ =
        ([], .fatal .unsupportedPartitionType) ∧
      ((runSource cfg0 (fun _ => "") (fun _ => effOk) 1
          ⟨"weekly", "2022-01-01", "2022-12-31"⟩).1.filter isWroteFile) = []) :=
  ⟨by decide, by decide, by decide,
    C6_unsupported_granularity cfg0 (fun _ => "") (fun _ => effOk) 1
      ⟨"weekly", "2022-01-01", "2022-12-31"⟩ ⟨2022, 1, 1, 0⟩ ⟨2022, 12, 31, 86399⟩
      (by decide) (by decide) (by decide)⟩

/-! ### The `Save` result is discarded (C7) -/

/-- The outcome of one partition of `Process` does not depend on the
`Save` outcome: line 254 calls `tpl.Save()` and drops its result. -/
theorem processPartition_saveErr (cfg : Config) (num : Int) (b e : String)
    (re we oe qe : Option GoErr) (rows : List (Except GoErr (List Val)))
    (sre : Nat → Option GoErr) (ie se se' : Option GoErr) :
    (processPartition cfg num b e ⟨re, we, oe, qe, rows, sre, ie, se⟩).2 =
      (processPartition cfg num b e ⟨re, we, oe, qe, rows, sre, ie, se'⟩).2 := by
  unfold processPartition
  cases re with
  | some _ => rfl
  | none =>
    cases we with
    | some _ => rfl
    | none =>
      cases oe with
      | some _ => rfl
      | none =>
        cases qe with
        | some _ => rfl
        | none =>
          dsimp only
          rcases hdl : dataLoop cfg.Template.Sheet cfg.Template.Col sre rows 0
            cfg.Template.Row with ⟨devs, dres⟩
          cases dres with
          | fail e1 => rfl
          | panicked => rfl
          | ok r =>
            rcases hvl : varsLoop cfg.Template.Sheet b e cfg.Output.Variables with ⟨vevs, vp⟩
            cases vp with
            | true => rfl
            | false =>
              rcases htot : cfg.Output.Totalizations with _ | ⟨t, ts⟩
              · rfl
              · cases ie with
                | some _ => rfl
                | none =>
                  dsimp only
                  rcases htl : totsLoop cfg.Template.Sheet r (t :: ts) with ⟨tevs, tp⟩
                  cases tp <;> rfl

/-- The result of the whole partition loop is invariant under arbitrary
changes to every partition's `Save` outcome. -/
theorem processLoop_save_invariant (cfg : Config) (fmtF : DT → String) (effs : Nat → PartEff)
    (f : Nat → Option GoErr) (total : Int) :
    ∀ (parts : List DT) (p : Nat),
      (processLoop cfg fmtF (fun q => { effs q with saveErr := f q }) total p parts).2 =
        (processLoop cfg fmtF effs total p parts).2 := by
  intro parts
  induction parts with
  | nil => intro p; rfl
  | cons a rest ih =>
    intro p
    cases rest with
    | nil => rfl
    | cons b2 rest2 =>
      unfold processLoop
      have hpp : (processPartition cfg (total + (p : Int)) (fmtF a) (fmtF (subOneDay b2))
            { effs p with saveErr := f p }).2 =
          (processPartition cfg (total + (p : Int)) (fmtF a) (fmtF (subOneDay b2))
            (effs p)).2 := by
        rcases heff : effs p with ⟨re, we, oe, qe, rows, sre, ie, se⟩
        exact processPartition_saveErr cfg _ _ _ re we oe qe rows sre ie (f p) se
      rcases h1 : processPartition cfg (total + (p : Int)) (fmtF a) (fmtF (subOneDay b2))
        { effs p with saveErr := f p } with ⟨evsA, resA⟩
      rcases h2 : processPartition cfg (total + (p : Int)) (fmtF a) (fmtF (subOneDay b2))
        (effs p) with ⟨evsB, resB⟩
      rw [h1, h2] at hpp
      dsimp only at hpp
      rw [hpp]
      cases resB with
      | ok =>
        dsimp only
        rcases h3 : processLoop cfg fmtF (fun q => { effs q with saveErr := f q }) total
          (p + 1) (b2 :: rest2) with ⟨e3, r3⟩
        rcases h4 : processLoop cfg fmtF effs total (p + 1) (b2 :: rest2) with ⟨e4, r4⟩
        have hihp := ih (p + 1)
        rw [h3, h4] at hihp
        dsimp only at hihp
        dsimp only
        exact hihp
      | fail e1 => rfl
      | panicked => rfl

/-- C7, counterexample: with two partitions whose `Save` both fail and
every other collaborator call succeeding, `Process` still clones and
saves the second partition and returns success — the save failure is
neither surfaced as its error result nor does it halt the remaining
partitions, because line 254 discards `tpl.Save()`'s result. -/
theorem C7_counterexample :
    processLoop cfg0 (fun _ => "") (fun _ => effSaveFail) 1 0
        [⟨2022, 1, 1, 0⟩, ⟨2022, 2, 1, 0⟩, ⟨2022, 3, 1, 0⟩] =
      ([.readFile "template.xlsx", .wroteFile "out-1.xlsx", .openFile, .closeFile,
        .save (some .saveError), .close, .rowsClose,
        .readFile "template.xlsx", .wroteFile "out-2.xlsx", .openFile, .closeFile,
        .save (some .saveError), .close, .rowsClose], PartRes.ok) ∧
    PartRes.ok ≠ PartRes.fail GoErr.saveError := by
  refine ⟨by decide, by decide⟩

/-- C7 (amended): a failure of the save step is never fatal: `Process`
discards `Save`'s result, so its error result and its treatment of the
remaining partitions are the same whatever each partition's save outcome
is; the fatal template-I/O failures are the clone (read/write) and open
steps, which still abort the data source. -/
theorem C7_amended (cfg : Config) (fmtF : DT → String) (effs : Nat → PartEff)
    (f : Nat → Option GoErr) (total : Int) (parts : List DT) (p : Nat) :
    (processLoop cfg fmtF (fun q => { effs q with saveErr := f q }) total p parts).2 =
      (processLoop cfg fmtF effs total p parts).2 :=
  processLoop_save_invariant cfg fmtF effs f total parts p

/-! ### `LoadTemplate` closes before returning (C10) -/

/-- C10: `LoadTemplate` registers `defer tpl.Close()` and then returns
the handle, so the deferred close runs before the caller sees the handle:
on every partition whose clone and open succeed, the trace begins
read-file, write-file, open, close — and every subsequent operation
`Process` performs on the handle (each cell write, the row insertion, the
`Save` and the final `Close`, which appear in `rest`) happens after the
handle was already closed once. -/
theorem C10_close_before_use (cfg : Config) (num : Int) (b e : String) (eff : PartEff)
    (hr : eff.readErr = none) (hw : eff.writeErr = none) (ho : eff.openErr = none) :
    ∃ rest, (processPartition cfg num b e eff).1 =
        Event.readFile cfg.Template.Path ::
          Event.wroteFile (resolveName cfg.Output.Name (toString num) b e) ::
          Event.openFile :: Event.closeFile :: rest ∧
      ((processPartition cfg num b e eff).2 = .ok →
        Event.save eff.saveErr ∈ rest ∧ Event.close ∈ rest) := by
  rcases eff with ⟨re, we, oe, qe, rows, sre, ie, se⟩
  dsimp only at hr hw ho ⊢
  subst hr hw ho
  unfold processPartition
  cases qe with
  | some e1 => exact ⟨[], rfl, fun h => nomatch h⟩
  | none =>
    dsimp only
    rcases hdl : dataLoop cfg.Template.Sheet cfg.Template.Col sre rows 0
      cfg.Template.Row with ⟨devs, dres⟩
    cases dres with
    | fail e1 => exact ⟨devs, rfl, fun h => nomatch h⟩
    | panicked => exact ⟨devs, rfl, fun h => nomatch h⟩
    | ok r =>
      dsimp only
      rcases hvl : varsLoop cfg.Template.Sheet b e cfg.Output.Variables with ⟨vevs, vp⟩
      cases vp with
      | true => exact ⟨devs ++ vevs, rfl, fun h => nomatch h⟩
      | false =>
        rcases htot : cfg.Output.Totalizations with _ | ⟨t, ts⟩
        · refine ⟨devs ++ vevs ++ [.save se, .close, .rowsClose], by rfl, fun _ => ?_⟩
          constructor <;> simp
        · cases ie with
          | some e1 =>
            exact ⟨devs ++ vevs ++ [.insertRow cfg.Template.Sheet r], by rfl,
              fun h => nomatch h⟩
          | none =>
            dsimp only
            rcases htl : totsLoop cfg.Template.Sheet r (t :: ts) with ⟨tevs, tp⟩
            cases tp with
            | true =>
              exact ⟨devs ++ vevs ++ [.insertRow cfg.Template.Sheet r] ++ tevs, by rfl,
                fun h => nomatch h⟩
            | false =>
              refine ⟨devs ++ vevs ++ [.insertRow cfg.Template.Sheet r] ++ tevs ++
                [.save se, .close, .rowsClose], by rfl, fun _ => ?_⟩
              constructor <;> simp

/-- C10, witness: a concrete partition run whose trace starts with the
open-then-close pair and still saves and closes afterwards. -/
theorem C10_close_before_use_witness :
    ∃ rest, (processPartition cfg0 1 "2022-01-01" "2022-01-31" effOk).1 =
        Event.readFile cfg0.Template.Path ::
          Event.wroteFile (resolveName cfg0.Output.Name (toString (1 : Int))
            "2022-01-01" "2022-01-31") ::
          Event.openFile :: Event.closeFile :: rest ∧
      ((processPartition cfg0 1 "2022-01-01" "2022-01-31" effOk).2 = .ok →
        Event.save effOk.saveErr ∈ rest ∧ Event.close ∈ rest) :=
  C10_close_before_use cfg0 1 "2022-01-01" "2022-01-31" effOk rfl rfl rfl

/-! ### The grid/variables/totalizations loops under valid columns (C3) -/

/-- With in-range columns the variables loop never panics and emits only
`setVar` events. -/
theorem varsLoop_ok (sheet b e : String) :
    ∀ vars : List Variable, (∀ v ∈ vars, 1 ≤ v.Col ∧ v.Col ≤ 52) →
      ∃ evs, varsLoop sheet b e vars = (evs, false) ∧
        evs.filter isSetRow = [] ∧ evs.filter isInsert = [] ∧
        evs.filter isSetFormula = [] := by
  intro vars
  induction vars with
  | nil => exact fun _ => ⟨[], rfl, rfl, rfl, rfl⟩
  | cons v rest ih =>
    intro h
    obtain ⟨evs, heq, h1, h2, h3⟩ := ih (fun x hx => h x (List.mem_cons_of_mem _ hx))
    have hv := h v (List.mem_cons_self _ _)
    have hax : goIndex ExcelCols (v.Col - 1) = some (excelName v.Col.toNat) :=
      excelCols_in_range v.Col hv.1 hv.2
    refine ⟨Event.setVar sheet (excelName v.Col.toNat ++ toString v.Row)
      (resolveVar v.Value b e) :: evs, ?_, ?_, ?_, ?_⟩
    · unfold varsLoop axisOf
      rw [hax]
      dsimp only [Option.map]
      rw [heq]
    · simp [List.filter_cons, isSetRow, h1]
    · simp [List.filter_cons, isInsert, h2]
    · simp [List.filter_cons, isSetFormula, h3]

/-- With in-range columns the totalizations loop never panics, emits no
row writes or row inserts, and contains each totalization's resolved
formula written at row `r` in its configured column. -/
theorem totsLoop_ok (sheet : String) (r : Int) :
    ∀ tots : List Totalization, (∀ t ∈ tots, 1 ≤ t.Col ∧ t.Col ≤ 52) →
      ∃ evs, totsLoop sheet r tots = (evs, false) ∧
        evs.filter isSetRow = [] ∧ evs.filter isInsert = [] ∧
        (∀ t ∈ tots, Event.setFormula sheet (excelName t.Col.toNat ++ toString r)
          (resolveFormula t.Formula (toString (r - 1))) ∈ evs) := by
  intro tots
  induction tots with
  | nil => exact fun _ => ⟨[], rfl, rfl, rfl, by simp⟩
  | cons t rest ih =>
    intro h
    obtain ⟨evs, heq, h1, h2, h3⟩ := ih (fun x hx => h x (List.mem_cons_of_mem _ hx))
    have ht := h t (List.mem_cons_self _ _)
    have hax : goIndex ExcelCols (t.Col - 1) = some (excelName t.Col.toNat) :=
      excelCols_in_range t.Col ht.1 ht.2
    refine ⟨Event.getStyle sheet (excelName t.Col.toNat ++ toString (r - 1)) ::
      Event.setFormula sheet (excelName t.Col.toNat ++ toString r)
        (resolveFormula t.Formula (toString (r - 1))) ::
      Event.setStyle sheet (excelName t.Col.toNat ++ toString r) :: evs, ?_, ?_, ?_, ?_⟩
    · unfold totsLoop
      rw [hax]
      dsimp only
      rw [heq]
    · simp [List.filter_cons, isSetRow, h1]
    · simp [List.filter_cons, isInsert, h2]
    · intro x hx
      rcases List.mem_cons.mp hx with rfl | hx'
      · simp
      · simp only [List.mem_cons]
        exact Or.inr (Or.inr (Or.inr (h3 x hx')))

/-- The data loop on exactly three scanned rows, start row 10, in-range
column and no write errors: the rows land at rows 10, 11, 12 and the
cursor ends at 13. -/
theorem dataLoop_three (sheet : String) (col : Int) (sre : Nat → Option GoErr)
    (hsre : ∀ i, sre i = none) (v1 v2 v3 : List Val) (hc1 : 1 ≤ col) (hc2 : col ≤ 52) :
    dataLoop sheet col sre [.ok v1, .ok v2, .ok v3] 0 10 =
      ([.setRow sheet (excelName col.toNat ++ "10") v1,
        .setRow sheet (excelName col.toNat ++ "11") v2,
        .setRow sheet (excelName col.toNat ++ "12") v3], .ok 13) := by
  have hax := excelCols_in_range col hc1 hc2
  simp only [dataLoop, axisOf, hax, Option.map_some', hsre 0, hsre 1, hsre 2,
    show (10 : Int) + 1 = 11 from by decide, show (11 : Int) + 1 = 12 from by decide,
    show (12 : Int) + 1 = 13 from by decide,
    show toString (10 : Int) = "10" from rfl, show toString (11 : Int) = "11" from rfl,
    show toString (12 : Int) = "12" from rfl]

/-- C3: with grid start row 10 and a query yielding exactly three rows,
`Process` writes them at rows 10, 11 and 12; when at least one
totalization is configured exactly one row is inserted, at row 13,
before any totalization formula is written, and each totalization's
formula — `{rows.last}` resolved to 12 — is written at row 13 in its
configured column; with no totalization configured no row is inserted. -/
theorem C3_grid_rows (cfg : Config) (num : Int) (b e : String) (eff : PartEff)
    (v1 v2 v3 : List Val)
    (hRow : cfg.Template.Row = 10)
    (hCol : 1 ≤ cfg.Template.Col ∧ cfg.Template.Col ≤ 52)
    (hrows : eff.rows = [.ok v1, .ok v2, .ok v3])
    (hsre : ∀ i, eff.setRowErr i = none)
    (hre : eff.readErr = none) (hwe : eff.writeErr = none) (hoe : eff.openErr = none)
    (hqe : eff.queryErr = none) (hie : eff.insertErr = none)
    (hvars : ∀ v ∈ cfg.Output.Variables, 1 ≤ v.Col ∧ v.Col ≤ 52)
    (htots : ∀ t ∈ cfg.Output.Totalizations, 1 ≤ t.Col ∧ t.Col ≤ 52) :
    (processPartition cfg num b e eff).1.filter isSetRow =
        [.setRow cfg.Template.Sheet (excelName cfg.Template.Col.toNat ++ "10") v1,
         .setRow cfg.Template.Sheet (excelName cfg.Template.Col.toNat ++ "11") v2,
         .setRow cfg.Template.Sheet (excelName cfg.Template.Col.toNat ++ "12") v3] ∧
    (cfg.Output.Totalizations = [] →
      (processPartition cfg num b e eff).1.filter isInsert = []) ∧
    (cfg.Output.Totalizations ≠ [] →
      (processPartition cfg num b e eff).1.filter isInsert =
          [.insertRow cfg.Template.Sheet 13] ∧
      (∃ l1 l2, (processPartition cfg num b e eff).1 =
          l1 ++ Event.insertRow cfg.Template.Sheet 13 :: l2 ∧
          l1.filter isSetFormula = []) ∧
      (∀ t ∈ cfg.Output.Totalizations,
        Event.setFormula cfg.Template.Sheet (excelName t.Col.toNat ++ "13")
          (resolveFormula t.Formula "12") ∈ (processPartition cfg num b e eff).1)) := by
  rcases eff with ⟨re, we, oe, qe, rows, sre, ie, se⟩
  dsimp only at hre hwe hoe hqe hie hrows hsre
  subst hre hwe hoe hqe hie hrows
  obtain ⟨vevs, hveq, hv1, hv2, hv3⟩ := varsLoop_ok cfg.Template.Sheet b e
    cfg.Output.Variables hvars
  have hdl := dataLoop_three cfg.Template.Sheet cfg.Template.Col sre hsre v1 v2 v3
    hCol.1 hCol.2
  unfold processPartition
  dsimp only
  rw [hRow, hdl, hveq]
  rcases htot : cfg.Output.Totalizations with _ | ⟨t, ts⟩
  · refine ⟨?_, fun _ => ?_, fun hne => absurd rfl hne⟩
    · simp [List.filter_append, List.filter_cons, isSetRow, hv1]
    · simp [List.filter_append, List.filter_cons, isInsert, hv2]
  · obtain ⟨tevs, hteq, ht1, ht2, ht3⟩ := totsLoop_ok cfg.Template.Sheet 13 (t :: ts)
      (htot ▸ htots)
    dsimp only
    rw [hteq]
    refine ⟨?_, ?_, fun _ => ⟨?_, ?_, ?_⟩⟩
    · simp [List.filter_append, List.filter_cons, isSetRow, hv1, ht1]
    · intro habs
      exact absurd habs (List.cons_ne_nil t ts)
    · simp [List.filter_append, List.filter_cons, isInsert, hv2, ht2]
    · refine ⟨[Event.readFile cfg.Template.Path,
        Event.wroteFile (resolveName cfg.Output.Name (toString num) b e),
        Event.openFile, Event.closeFile] ++
        [Event.setRow cfg.Template.Sheet (excelName cfg.Template.Col.toNat ++ "10") v1,
         Event.setRow cfg.Template.Sheet (excelName cfg.Template.Col.toNat ++ "11") v2,
         Event.setRow cfg.Template.Sheet (excelName cfg.Template.Col.toNat ++ "12") v3] ++
        vevs, tevs ++ [.save se, .close, .rowsClose], ?_, ?_⟩
      · simp [List.append_assoc]
      · simp [List.filter_append, List.filter_cons, isSetFormula, hv3]
    · intro x hx
      have hmem := ht3 x hx
      rw [show toString ((13 : Int) - 1) = "12" from rfl,
        show toString (13 : Int) = "13" from rfl] at hmem
      simp [List.mem_append, List.mem_cons, hmem]

/-- C3, witness at `cfg1` (start row 10, one variable, one totalization)
with three scanned rows. -/
theorem C3_grid_rows_witness :
    cfg1.Template.Row = 10 ∧ (∀ i, eff3.setRowErr i = none) ∧
    ((processPartition cfg1 1 "2022-01-01" "2022-01-31" eff3).1.filter isSetRow =
        [.setRow cfg1.Template.Sheet (excelName cfg1.Template.Col.toNat ++ "10")
           [.vint 1, .vstr "a"],
         .setRow cfg1.Template.Sheet (excelName cfg1.Template.Col.toNat ++ "11")
           [.vint 2, .vstr "b"],
         .setRow cfg1.Template.Sheet (excelName cfg1.Template.Col.toNat ++ "12")
           [.vint 3, .vstr "c"]] ∧
      (cfg1.Output.Totalizations = [] →
        (processPartition cfg1 1 "2022-01-01" "2022-01-31" eff3).1.filter isInsert = []) ∧
      (cfg1.Output.Totalizations ≠ [] →
        (processPartition cfg1 1 "2022-01-01" "2022-01-31" eff3).1.filter isInsert =
            [.insertRow cfg1.Template.Sheet 13] ∧
        (∃ l1 l2, (processPartition cfg1 1 "2022-01-01" "2022-01-31" eff3).1 =
            l1 ++ Event.insertRow cfg1.Template.Sheet 13 :: l2 ∧
            l1.filter isSetFormula = []) ∧
        (∀ t ∈ cfg1.Output.Totalizations,
          Event.setFormula cfg1.Template.Sheet (excelName t.Col.toNat ++ "13")
            (resolveFormula t.Formula "12") ∈
              (processPartition cfg1 1 "2022-01-01" "2022-01-31" eff3).1))) :=
  ⟨rfl, fun _ => rfl,
    C3_grid_rows cfg1 1 "2022-01-01" "2022-01-31" eff3
      [.vint 1, .vstr "a"] [.vint 2, .vstr "b"] [.vint 3, .vstr "c"]
      rfl (by decide) rfl (fun _ => rfl) rfl rfl rfl rfl rfl (by decide) (by decide)⟩

/-- C1, counterexample: for the parsed, supported, `begin <= end` spec
(monthly, 2022-01-01 .. 2022-03-31), the last boundary returned by
`CreatePartitions` is 2022-04-01T00:00:00, which is not the normalized
end 2022-03-31T23:59:59 — it strictly overshoots it, so the claim that
the last element equals the normalized end (clamped, never overshooting)
is false. -/
theorem C1_counterexample :
    createPartitions ⟨"monthly", "2022-01-01", "2022-03-31"⟩ =
      .ok [⟨2022, 1, 1, 0⟩, ⟨2022, 2, 1, 0⟩, ⟨2022, 3, 1, 0⟩, ⟨2022, 4, 1, 0⟩] ∧
    parseDateTime ("2022-03-31" ++ "T23:59:59") = some ⟨2022, 3, 31, 86399⟩ ∧
    (⟨2022, 4, 1, 0⟩ : DT) ≠ ⟨2022, 3, 31, 86399⟩ ∧
    absS ⟨2022, 3, 31, 86399⟩ < absS ⟨2022, 4, 1, 0⟩ := by
  refine ⟨by decide, by decide, by decide, by decide⟩

/-- C1 (amended): for every `PartitionSpec` whose dates parse, whose
granularity is supported, and with `begin <= end` (as dates),
`CreatePartitions` succeeds with a boundary sequence whose first element
is the normalized begin and whose elements are strictly increasing; every
boundary except the last is strictly before the normalized end, and the
last is the first boundary reached that is not before the end — it is at
least the end and is never clamped back to it. -/
theorem C1_amended (part : Partition) (b e : DT) (g : Gran)
    (hb : parseDateTime (part.pbegin ++ "T00:00:00") = some b)
    (he : parseDateTime (part.pend ++ "T23:59:59") = some e)
    (hg : granOf part.ptype = some g)
    (hle : absDays b ≤ absDays e) :
    ∃ l, createPartitions part = .ok l ∧ l.head? = some b ∧
      List.Chain' (fun x y => absS x < absS y) l ∧
      ∃ l' z, l = l' ++ [z] ∧ (∀ x ∈ l', absS x < absS e) ∧ absS e ≤ absS z := by
  have hvb := parseDateTime_valid _ _ hb
  have hve := parseDateTime_valid _ _ he
  refine ⟨partLoop g (absDays e - absDays b + 1) e b, ?_,
    partLoop_head g _ e b, partLoop_chain g _ e b hvb, ?_⟩
  · simp only [createPartitions, hb, he, hg]
  · obtain ⟨l', z, heq, h1, h2, _⟩ :=
      partLoop_last g (absDays e - absDays b + 1) e b hvb hve.2.2.2.2 (by omega)
    exact ⟨l', z, heq, h1, h2⟩

/-- C1 (amended), witness at the monthly 2022-01-01..2022-03-31 spec. -/
theorem C1_amended_witness :
    parseDateTime ("2022-01-01" ++ "T00:00:00") = some ⟨2022, 1, 1, 0⟩ ∧
    parseDateTime ("2022-03-31" ++ "T23:59:59") = some ⟨2022, 3, 31, 86399⟩ ∧
    granOf "monthly" = some Gran.month ∧
    absDays (⟨2022, 1, 1, 0⟩ : DT) ≤ absDays ⟨2022, 3, 31, 86399⟩ ∧
    (∃ l, createPartitions ⟨"monthly", "2022-01-01", "2022-03-31"⟩ = .ok l ∧
      l.head? = some ⟨2022, 1, 1, 0⟩ ∧
      List.Chain' (fun x y => absS x < absS y) l ∧
      ∃ l' z, l = l' ++ [z] ∧
        (∀ x ∈ l', absS x < absS (⟨2022, 3, 31, 86399⟩ : DT)) ∧
        absS (⟨2022, 3, 31, 86399⟩ : DT) ≤ absS z) :=
  ⟨by decide, by decide, by decide, by decide,
    C1_amended ⟨"monthly", "2022-01-01", "2022-03-31"⟩ ⟨2022, 1, 1, 0⟩
      ⟨2022, 3, 31, 86399⟩ Gran.month (by decide) (by decide) (by decide) (by decide)⟩

/-- C2, counterexample: the monthly spec 2022-01-01..2022-03-31 yields
the boundary dates 2022-01-01, 2022-02-01, 2022-03-01, 2022-04-01 — the
fourth is April 1, not the claimed 2022-03-31. -/
theorem C2_counterexample :
    (createPartitions ⟨"monthly", "2022-01-01", "2022-03-31"⟩).map
        (List.map fun t => (t.year, t.month, t.day)) =
      .ok [(2022, 1, 1), (2022, 2, 1), (2022, 3, 1), (2022, 4, 1)] ∧
    ((2022, 4, 1) : Nat × Nat × Nat) ≠ (2022, 3, 31) := by
  refine ⟨by decide, by decide⟩

/-- C2 (amended): the monthly spec 2022-01-01..2022-03-31 yields exactly
the four boundary dates 2022-01-01, 2022-02-01, 2022-03-01 and
2022-04-01, in that order; the inclusive end 2022-03-31 appears only when
`Process` formats a partition's end as `boundary[p+1] - 1 day`. -/
theorem C2_amended :
    (createPartitions ⟨"monthly", "2022-01-01", "2022-03-31"⟩).map
        (List.map fun t => (t.year, t.month, t.day)) =
      .ok [(2022, 1, 1), (2022, 2, 1), (2022, 3, 1), (2022, 4, 1)] ∧
    (subOneDay ⟨2022, 4, 1, 0⟩).year = 2022 ∧ (subOneDay ⟨2022, 4, 1, 0⟩).month = 3 ∧
    (subOneDay ⟨2022, 4, 1, 0⟩).day = 31 := by
  refine ⟨by decide, by decide, by decide, by decide⟩

/-- C8: when both dates parse and the granularity is supported but the
end date is before the begin date, `CreatePartitions` silently succeeds
with the single boundary `[begin]` (no error of any kind). -/
theorem C8_end_before_begin (part : Partition) (b e : DT) (g : Gran)
    (hb : parseDateTime (part.pbegin ++ "T00:00:00") = some b)
    (he : parseDateTime (part.pend ++ "T23:59:59") = some e)
    (hg : granOf part.ptype = some g)
    (hlt : absDays e < absDays b) :
    createPartitions part = .ok [b] := by
  have hve := parseDateTime_valid _ _ he
  simp only [createPartitions, hb, he, hg]
  rw [show absDays e - absDays b + 1 = 0 + 1 from by omega, partLoop_succ]
  rw [if_neg ?_]
  unfold before
  simp only [decide_eq_true_eq, not_lt]
  have : absS e < absS b := absS_lt_of_absDays_lt hlt hve.2.2.2.2
  omega

/-! ### Claims about the placeholder substitutions (C4, C5) -/

/-- C4, counterexample: a `{num}` token occurring in the query text (or
in a variable value template) is not substituted — the query and variable
substitutions of `Process` replace only `{part.beg}` and `{part.end}` —
so `{num}` is left verbatim in the output, contrary to the claim. -/
theorem C4_counterexample :
    resolveQuery "select {num}" "2022-01-01" "2022-01-31" = "select {num}" ∧
    resolveVar "partition {num}" "2022-01-01" "2022-01-31" = "partition {num}" := by
  refine ⟨by decide, by decide⟩

/-- C4 (amended): each kind of template string gets exactly the token set
its code path substitutes — output file names substitute `{num}`,
`{part.beg}`, `{part.end}` (and gain the `.xlsx` suffix); query text and
header variable values substitute only `{part.beg}` and `{part.end}`,
leaving any `{num}` verbatim for every context value; totalization
formulas substitute `{rows.last}`. -/
theorem C4_amended :
    (∀ begin_ end_ : String, resolveQuery "select {num}" begin_ end_ = "select {num}") ∧
    (∀ begin_ end_ : String, resolveVar "x{num}y" begin_ end_ = "x{num}y") ∧
    resolveTokens "{num}-{part.beg}-{part.end}" "7" "2022-01-01" "2022-01-31" =
      "7-2022-01-01-2022-01-31" ∧
    resolveName "{num}-{part.beg}-{part.end}" "7" "2022-01-01" "2022-01-31" =
      "7-2022-01-01-2022-01-31.xlsx" ∧
    resolveQuery "between '{part.beg}' and '{part.end}'" "2022-01-01" "2022-01-31" =
      "between '2022-01-01' and '2022-01-31'" ∧
    resolveVar "partition {part.beg} to {part.end}" "2022-01-01" "2022-01-31" =
      "partition 2022-01-01 to 2022-01-31" ∧
    resolveFormula "=SUM(D10:D{rows.last})" "12" = "=SUM(D10:D12)" := by
  refine ⟨?_, ?_, by decide, by decide, by decide, by decide, by decide⟩
  · intro begin_ end_
    unfold resolveQuery
    rw [replaceAll_of_not_hasSub "select {num}" "{part.beg}" begin_ (by decide),
      replaceAll_of_not_hasSub "select {num}" "{part.end}" end_ (by decide)]
  · intro begin_ end_
    unfold resolveVar
    rw [replaceAll_of_not_hasSub "x{num}y" "{part.beg}" begin_ (by decide),
      replaceAll_of_not_hasSub "x{num}y" "{part.end}" end_ (by decide)]

/-- C5, counterexample: with template `"{{part.beg}}"` and context values
num = "1", beg = "part.beg", end = "x" — none of which contains any
placeholder token as a substring — one resolution yields `"{part.beg}"`
(the substituted value completes a token with the surrounding braces of
the template) and a second resolution changes it to `"part.beg"`;
resolution is therefore not idempotent under the claimed condition. -/
theorem C5_counterexample :
    (hasSubStr "1" "{num}" = false ∧ hasSubStr "1" "{part.beg}" = false ∧
      hasSubStr "1" "{part.end}" = false ∧ hasSubStr "1" "{rows.last}" = false) ∧
    (hasSubStr "part.beg" "{num}" = false ∧ hasSubStr "part.beg" "{part.beg}" = false ∧
      hasSubStr "part.beg" "{part.end}" = false ∧
      hasSubStr "part.beg" "{rows.last}" = false) ∧
    (hasSubStr "x" "{num}" = false ∧ hasSubStr "x" "{part.beg}" = false ∧
      hasSubStr "x" "{part.end}" = false ∧ hasSubStr "x" "{rows.last}" = false) ∧
    resolveTokens "{{part.beg}}" "1" "part.beg" "x" = "{part.beg}" ∧
    resolveTokens (resolveTokens "{{part.beg}}" "1" "part.beg" "x") "1" "part.beg" "x" =
      "part.beg" ∧
    ("part.beg" : String) ≠ "{part.beg}" := by
  refine ⟨by decide, by decide, by decide, by decide, by decide, by decide⟩

/-- C5 (amended): resolution is idempotent once the resolved string
contains no placeholder token: if one application of the substitution
chain leaves no occurrence of `{num}`, `{part.beg}` or `{part.end}`, a
second application returns the string unchanged.  (The claimed condition
— only that the substituted values contain no token — does not suffice,
because a value can complete a token together with adjacent template
text, as the counterexample shows.) -/
theorem C5_amended (s num begin_ end_ : String)
    (h1 : hasSubStr (resolveTokens s num begin_ end_) "{num}" = false)
    (h2 : hasSubStr (resolveTokens s num begin_ end_) "{part.beg}" = false)
    (h3 : hasSubStr (resolveTokens s num begin_ end_) "{part.end}" = false) :
    resolveTokens (resolveTokens s num begin_ end_) num begin_ end_ =
      resolveTokens s num begin_ end_ := by
  set r := resolveTokens s num begin_ end_ with hr
  show resolveTokens r num begin_ end_ = r
  unfold resolveTokens
  rw [replaceAll_of_not_hasSub _ _ _ h1, replaceAll_of_not_hasSub _ _ _ h2,
    replaceAll_of_not_hasSub _ _ _ h3]

/-- C5 (amended), witness at a fully substituted template. -/
theorem C5_amended_witness :
    hasSubStr (resolveTokens "n{num} {part.beg} to {part.end}" "3" "2022-01-01" "2022-01-31")
        "{num}" = false ∧
    hasSubStr (resolveTokens "n{num} {part.beg} to {part.end}" "3" "2022-01-01" "2022-01-31")
        "{part.beg}" = false ∧
    hasSubStr (resolveTokens "n{num} {part.beg} to {part.end}" "3" "2022-01-01" "2022-01-31")
        "{part.end}" = false ∧
    resolveTokens
        (resolveTokens "n{num} {part.beg} to {part.end}" "3" "2022-01-01" "2022-01-31")
        "3" "2022-01-01" "2022-01-31" =
      resolveTokens "n{num} {part.beg} to {part.end}" "3" "2022-01-01" "2022-01-31" :=
  ⟨by decide, by decide, by decide,
    C5_amended "n{num} {part.beg} to {part.end}" "3" "2022-01-01" "2022-01-31"
      (by decide) (by decide) (by decide)⟩

/-- C8, witness at the monthly spec with end 2022-01-01 before begin
2022-12-31. -/
theorem C8_end_before_begin_witness :
    parseDateTime ("2022-12-31" ++ "T00:00:00") = some ⟨2022, 12, 31, 0⟩ ∧
    parseDateTime ("2022-01-01" ++ "T23:59:59") = some ⟨2022, 1, 1, 86399⟩ ∧
    granOf "monthly" = some Gran.month ∧
    absDays (⟨2022, 1, 1, 86399⟩ : DT) < absDays ⟨2022, 12, 31, 0⟩ ∧
    createPartitions ⟨"monthly", "2022-12-31", "2022-01-01"⟩ = .ok [⟨2022, 12, 31, 0⟩] :=
  ⟨by decide, by decide, by decide, by decide,
    C8_end_before_begin ⟨"monthly", "2022-12-31", "2022-01-01"⟩ ⟨2022, 12, 31, 0⟩
      ⟨2022, 1, 1, 86399⟩ Gran.month (by decide) (by decide) (by decide) (by decide)⟩

end Sql2Excel
